import Mathlib

/-!
Verification of the protocol layer of a Ledger hardware-wallet client.

The development shallowly embeds the protocol core of `src/main.rs`:
the hex codec, the APDU command deserializer (`deser_apdu_command`),
the get-version response decoder (`DeviceInfo::new`), the installed-app
listing decoder (`list_installed_apps`), and the websocket relay engine
(`query_via_websocket`).  Bytes are modelled as `Nat` (values < 256 on
real inputs), byte buffers as `List Nat`, and Rust strings that are
produced by UTF-8-decoding payload bytes are kept as their byte lists
together with an explicit UTF-8 validity check.  Rust panics
(out-of-bounds indexing, `unwrap` on `Err`) are modelled as dedicated
error constructors, distinct from the `Result::Err` values the Rust
functions return with `?`.
-/

deriving instance DecidableEq for Except

/-! ## Hex codec (model of the `hex` crate's `encode`/`decode`) -/

/-- Lowercase hex digit for a nibble, as emitted by `hex::encode`. -/
def hexDigitChar (n : Nat) : Char :=
  if n < 10 then Char.ofNat (48 + n) else Char.ofNat (87 + n)

/-- Value of a hex digit character, accepting both cases as `hex::decode` does. -/
def hexDigitVal (c : Char) : Option Nat :=
  if 48 ≤ c.toNat ∧ c.toNat ≤ 57 then some (c.toNat - 48)
  else if 97 ≤ c.toNat ∧ c.toNat ≤ 102 then some (c.toNat - 87)
  else if 65 ≤ c.toNat ∧ c.toNat ≤ 70 then some (c.toNat - 55)
  else none

/-- Two lowercase hex digits of a byte. -/
def byteHexChars (b : Nat) : List Char :=
  [hexDigitChar (b / 16), hexDigitChar (b % 16)]

/-- Model of `hex::encode`: each byte becomes two lowercase hex digits. -/
def hexEncode (bs : List Nat) : String :=
  ⟨(bs.map byteHexChars).flatten⟩

/-- Model of `hex::decode`: fails on odd length or on a non-hex character. -/
def hexDecode : List Char → Option (List Nat)
  | [] => some []
  | [_] => none
  | c1 :: c2 :: rest =>
    match hexDigitVal c1, hexDigitVal c2 with
    | some h, some l => (hexDecode rest).map (fun bs => (16 * h + l) :: bs)
    | _, _ => none

/-! ## UTF-8 validity (model of `str::from_utf8` succeeding) -/

/-- Continuation byte test (0x80–0xBF). -/
def isCont (b : Nat) : Bool := 128 ≤ b && b ≤ 191

/-- Whether a byte sequence is valid UTF-8, following the acceptance
automaton used by Rust's `str::from_utf8` (surrogates and overlong
encodings rejected). -/
def isValidUtf8 : List Nat → Bool
  | [] => true
  | b :: rest =>
    if b ≤ 127 then isValidUtf8 rest
    else if 194 ≤ b ∧ b ≤ 223 then
      match rest with
      | b1 :: r => isCont b1 && isValidUtf8 r
      | [] => false
    else if b = 224 then
      match rest with
      | b1 :: b2 :: r => (160 ≤ b1 && b1 ≤ 191) && isCont b2 && isValidUtf8 r
      | _ => false
    else if (225 ≤ b ∧ b ≤ 236) ∨ b = 238 ∨ b = 239 then
      match rest with
      | b1 :: b2 :: r => isCont b1 && isCont b2 && isValidUtf8 r
      | _ => false
    else if b = 237 then
      match rest with
      | b1 :: b2 :: r => (128 ≤ b1 && b1 ≤ 159) && isCont b2 && isValidUtf8 r
      | _ => false
    else if b = 240 then
      match rest with
      | b1 :: b2 :: b3 :: r =>
        (144 ≤ b1 && b1 ≤ 191) && isCont b2 && isCont b3 && isValidUtf8 r
      | _ => false
    else if 241 ≤ b ∧ b ≤ 243 then
      match rest with
      | b1 :: b2 :: b3 :: r => isCont b1 && isCont b2 && isCont b3 && isValidUtf8 r
      | _ => false
    else if b = 244 then
      match rest with
      | b1 :: b2 :: b3 :: r =>
        (128 ≤ b1 && b1 ≤ 143) && isCont b2 && isCont b3 && isValidUtf8 r
      | _ => false
    else false

/-! ## Integer reads -/

/-- Model of `u32::from_be_bytes` on a 4-byte slice. -/
def u32be : List Nat → Nat
  | [b0, b1, b2, b3] => ((b0 * 256 + b1) * 256 + b2) * 256 + b3
  | _ => 0

/-- Model of `u16::from_be_bytes` on a 2-byte slice. -/
def u16be : List Nat → Nat
  | [b0, b1] => b0 * 256 + b1
  | _ => 0

/-! ## APDU command codec -/

/-- Model of `ledger_apdu::APDUCommand` with a byte-vector payload. -/
structure APDUCommand where
  cla : Nat
  ins : Nat
  p1 : Nat
  p2 : Nat
  data : List Nat
deriving Repr, DecidableEq

inductive DeserErr where
  /-- `hex::decode` failed. -/
  | hexError
  /-- the "Invalid command" error of `deser_apdu_command`. -/
  | invalidCommand
deriving Repr, DecidableEq

/-- Model of `deser_apdu_command` in `src/main.rs`: hex-decode the string,
require at least a 5-byte header, read `(cla, ins, p1, p2, data_len)`,
require the total length to be exactly `5 + data_len`, and take the rest
as the payload. -/
def deser_apdu_command (s : String) : Except DeserErr APDUCommand :=
  match hexDecode s.data with
  | none => .error .hexError
  | some bytes =>
    if bytes.length < 5 then .error .invalidCommand
    else
      let data_len := bytes.getD 4 0
      if bytes.length ≠ 5 + data_len then .error .invalidCommand
      else .ok { cla := bytes.getD 0 0, ins := bytes.getD 1 0, p1 := bytes.getD 2 0,
                 p2 := bytes.getD 3 0, data := bytes.drop 5 }

/-- Modelled from the spec: the frame builder (`encode`) is provided by the
external `ledger_apdu` crate and is not part of this repository's source;
the spec gives the frame layout `[class, instruction, p1, p2, len(payload),
payload...]`, hex-encoded on the wire. -/
def ser_apdu_command (c : APDUCommand) : String :=
  hexEncode ([c.cla, c.ins, c.p1, c.p2, c.data.length] ++ c.data)

/-! ## DeviceInfo decoder (`DeviceInfo::new` in `src/main.rs`)

The Rust code walks the get-version response with an index `i` and
bounds checks of the form `data.len() < i + n`.  The embedding passes
the not-yet-consumed suffix `rem = data.drop i` instead, so each check
`data.len() < i + n` becomes `rem.length < n` at the corresponding
point.  String fields stay as their byte lists. -/

inductive DecodeErr where
  /-- a returned `Err("Not enough data")`. -/
  | notEnoughData
  /-- a returned `Err` from `str::from_utf8(...)?` on invalid UTF-8. -/
  | utf8Error
  /-- a returned `Err("Invalid listApps length data.")`. -/
  | invalidRecord
  /-- a panic: `str::from_utf8(...).unwrap()` on invalid UTF-8. -/
  | panicUtf8
  /-- a panic: out-of-bounds index `mcu[mcu.len() - 1]` on an empty slice. -/
  | panicIndex
  /-- a panic: `.try_into().unwrap()` on a slice whose length is not 4. -/
  | panicTryInto
  /-- a panic: the `assert_eq!(data[i], 0x01)` page-marker assertion. -/
  | panicAssert
deriving Repr, DecidableEq

/-- Model of `DeviceInfo` in `src/main.rs`; the `String` fields hold the
UTF-8 bytes of the corresponding Rust strings. -/
structure DeviceInfo where
  target_id : Nat
  version : List Nat
  flags : List Nat
  is_bootloader : Bool
  se_version : Option (List Nat)
  se_target_id : Nat
  mcu_version : Option (List Nat)
deriving Repr, DecidableEq

/-- The `if is_bootloader { ... } else { ... }` tail of `DeviceInfo::new`,
factored out over the header fields already read and the remaining payload
suffix `rem` (the factoring is purely for proof modularity; the body is the
verbatim translation of the two arms). -/
def DeviceInfo.parseTail (target_id : Nat) (version flags : List Nat)
    (is_bootloader : Bool) (rem : List Nat) : Except DecodeErr DeviceInfo :=
  if is_bootloader then
    if rem.length < 1 then .error .notEnoughData else
    let part1_len := rem.headD 0
    let rem1 := rem.drop 1
    if rem1.length < part1_len then .error .notEnoughData else
    let part1 := rem1.take part1_len
    let rem2 := rem1.drop part1_len
    if 5 ≤ part1_len then
      if ¬ isValidUtf8 part1 then .error .panicUtf8 else
      let se_version := part1
      if rem2.length < 1 then .error .notEnoughData else
      let part2_len := rem2.headD 0
      let rem3 := rem2.drop 1
      if rem3.length < part2_len then .error .notEnoughData else
      let part2 := rem3.take part2_len
      if part2.length ≠ 4 then .error .panicTryInto else
      .ok { target_id, version, flags, is_bootloader,
            se_version := some se_version, se_target_id := u32be part2,
            mcu_version := none }
    else
      if part1.length ≠ 4 then .error .panicTryInto else
      .ok { target_id, version, flags, is_bootloader,
            se_version := none, se_target_id := u32be part1,
            mcu_version := none }
  else
    if rem.length < 1 then .error .notEnoughData else
    let mcu_len := rem.headD 0
    let rem1 := rem.drop 1
    if rem1.length < mcu_len then .error .notEnoughData else
    let mcu := rem1.take mcu_len
    if mcu.length = 0 then .error .panicIndex else
    let mcu2 := if mcu.getLast? = some 0 then mcu.dropLast else mcu
    if ¬ isValidUtf8 mcu2 then .error .panicUtf8 else
    .ok { target_id, version, flags, is_bootloader,
          se_version := some version, se_target_id := target_id,
          mcu_version := some mcu2 }

/-- Model of `DeviceInfo::new` applied to the data of the get-version
answer.  A returned `Err` maps to `notEnoughData`/`utf8Error`; a Rust
panic maps to one of the `panic*` constructors. -/
def DeviceInfo.new (data : List Nat) : Except DecodeErr DeviceInfo :=
  if data.length < 5 then .error .notEnoughData else
  let target_id := u32be (data.take 4)
  let rem := data.drop 4
  let raw_ver_len := rem.headD 0
  let rem1 := rem.drop 1
  if rem1.length < raw_ver_len + 1 then .error .notEnoughData else
  let raw_ver := rem1.take raw_ver_len
  let rem2 := rem1.drop raw_ver_len
  if ¬ isValidUtf8 raw_ver then .error .utf8Error else
  let version := raw_ver
  let flags_len := rem2.headD 0
  let rem3 := rem2.drop 1
  if rem3.length < flags_len then .error .notEnoughData else
  let flags := rem3.take flags_len
  let rem4 := rem3.drop flags_len
  let is_bootloader : Bool := (target_id &&& 4026531840) != 805306368
  DeviceInfo.parseTail target_id version flags is_bootloader rem4

/-! ## Installed-app listing (`list_installed_apps` in `src/main.rs`) -/

/-- Model of `InstalledApp`; `name` holds the UTF-8 bytes of the Rust string. -/
structure InstalledApp where
  name : List Nat
  hash : List Nat
  hash_code_data : List Nat
  blocks : Nat
  flags : Nat
deriving Repr, DecidableEq

/-- Model of the inner record loop of `list_installed_apps`, over the page
suffix after the 0x01 marker byte: while data remains, read the 70-byte
fixed part, the name length, check `len == name_len + 70`, read the UTF-8
name, and continue. -/
def parseRecords : List Nat → Except DecodeErr (List InstalledApp)
  | [] => .ok []
  | b0 :: tl =>
    let data := b0 :: tl
    if data.length < 1 + 2 + 2 + 32 + 32 + 1 then .error .notEnoughData else
    let len := data.headD 0
    let rem := data.drop 1
    let blocks := u16be (rem.take 2)
    let rem := rem.drop 2
    let flags := u16be (rem.take 2)
    let rem := rem.drop 2
    let hash_code_data := rem.take 32
    let rem := rem.drop 32
    let hash := rem.take 32
    let rem := rem.drop 32
    let name_len := rem.headD 0
    let rem := rem.drop 1
    if rem.length < name_len then .error .notEnoughData else
    if len ≠ name_len + 70 then .error .invalidRecord else
    let name := rem.take name_len
    if ¬ isValidUtf8 name then .error .utf8Error else
    match parseRecords (rem.drop name_len) with
    | .error e => .error e
    | .ok apps => .ok ({ name, hash, hash_code_data, blocks, flags } :: apps)
termination_by data => data.length
decreasing_by simp only [List.length_drop, List.length_cons]; omega

/-- Model of the pagination loop of `list_installed_apps`.  The argument
is the stream of successive device answers to "list apps" and then
"continue list apps": the loop stops with the apps collected so far when
an answer is empty, asserts the 0x01 marker byte at the start of every
non-empty answer (a failed assertion is the `panicAssert` outcome), and
appends the records of each page in receipt order. -/
def list_installed_apps : List (List Nat) → Except DecodeErr (List InstalledApp)
  | [] => .ok []
  | data :: pages =>
    if data.isEmpty then .ok []
    else if data.headD 0 ≠ 1 then .error .panicAssert
    else
      match parseRecords (data.drop 1) with
      | .error e => .error e
      | .ok apps =>
        match list_installed_apps pages with
        | .error e => .error e
        | .ok more => .ok (apps ++ more)

/-! ## Relay engine (`query_via_websocket` in `src/main.rs`)

The device transport is modelled as a function `dev : Nat → ExchangeResult`
giving the outcome of the n-th `ledger_api.exchange` call of the session:
either a transport-level failure, or an answer consisting of the payload
bytes (`resp.data()`, status word already excluded) and the status word
(`resp.retcode()`).  The inbound side of the socket is modelled as the
list of successive parsed JSON messages; the session result records the
outbound JSON replies and the APDU commands relayed to the device, in
order. -/

/-- Outcome of one `ledger_api.exchange` call: transport failure, or an
answer with payload bytes (status excluded) and status word. -/
inductive ExchangeResult where
  | transportErr
  | ok (data : List Nat) (retcode : Nat)
deriving Repr, DecidableEq

/-- the `StatusCode::OK` discriminant (0x9000). -/
def StatusCode.OK : Nat := 36864

/-- Model of the untagged `HsmMessageData`: a single hex command or a list. -/
inductive HsmMessageData where
  | Command (s : String)
  | CommandList (l : List String)
deriving Repr, DecidableEq

/-- Model of the inbound `HsmMessage` JSON envelope. -/
structure HsmMessage where
  query : String
  nonce : Nat
  data : Option HsmMessageData
deriving Repr, DecidableEq

/-- An outbound JSON reply `{nonce, response, data}`. -/
structure WsResp where
  nonce : Nat
  response : String
  data : String
deriving Repr, DecidableEq

/-- Session-level errors of `query_via_websocket` (each is a distinct
`Err` return of the Rust function). -/
inductive RelayErr where
  /-- a `deser_apdu_command` failure propagated with `?`. -/
  | commandError (e : DeserErr)
  /-- a transport-level `ledger_api.exchange` failure propagated with `?`. -/
  | transportError
  /-- "A single command is expected in 'exchange' mode." or
  "Expecting a list of commands in bulk mode.". -/
  | protocolViolation
  /-- the error return on a "error" query from the peer. -/
  | remoteError
  /-- the error return on an unsupported query string. -/
  | unsupportedQuery
  /-- `socket.read()` failing once the modelled inbound stream is exhausted. -/
  | channelEnd
deriving Repr, DecidableEq

/-- Result of a relay session: outbound replies sent, APDU commands
relayed to the device, and the overall outcome, mirroring
`Result<(), _>` of `query_via_websocket`. -/
structure SessionResult where
  sent : List WsResp
  exchanged : List APDUCommand
  outcome : Except RelayErr Unit
deriving Repr, DecidableEq

/-- Model of the `for cmd_hex in commands` loop of the "bulk" branch:
execute the hex commands in order, skipping empty strings; a
deserialization or transport failure aborts with that error.  Returns
the commands relayed to the device and, on success, the next exchange
index. -/
def runBulk (dev : Nat → ExchangeResult) (k : Nat) :
    List String → List APDUCommand × Except RelayErr Nat
  | [] => ([], .ok k)
  | h :: t =>
    if h.isEmpty then runBulk dev k t
    else match deser_apdu_command h with
      | .error e => ([], .error (.commandError e))
      | .ok c =>
        match dev k with
        | .transportErr => ([c], .error .transportError)
        | .ok _ _ =>
          let r := runBulk dev (k + 1) t
          (c :: r.1, r.2)

/-- Model of the receive loop of `query_via_websocket`, starting at
exchange index `k` with the given remaining inbound messages. -/
def run (dev : Nat → ExchangeResult) (k : Nat) : List HsmMessage → SessionResult
  | [] => ⟨[], [], .error .channelEnd⟩
  | msg :: rest =>
    if msg.query = "exchange" then
      match msg.data with
      | some (.Command h) =>
        match deser_apdu_command h with
        | .error e => ⟨[], [], .error (.commandError e)⟩
        | .ok c =>
          match dev k with
          | .transportErr => ⟨[], [c], .error .transportError⟩
          | .ok d rc =>
            let response := if rc == StatusCode.OK then "success" else "error"
            let s := run dev (k + 1) rest
            ⟨⟨msg.nonce, response, hexEncode d⟩ :: s.sent, c :: s.exchanged, s.outcome⟩
      | _ => ⟨[], [], .error .protocolViolation⟩
    else if msg.query = "bulk" then
      match msg.data with
      | some (.CommandList l) =>
        match runBulk dev k l with
        | (tr, .error e) => ⟨[], tr, .error e⟩
        | (tr, .ok k') =>
          let s := run dev k' rest
          ⟨⟨msg.nonce, "success", ""⟩ :: s.sent, tr ++ s.exchanged, s.outcome⟩
      | _ => ⟨[], [], .error .protocolViolation⟩
    else if msg.query = "success" then ⟨[], [], .ok ()⟩
    else if msg.query = "error" then ⟨[], [], .error .remoteError⟩
    else if msg.query = "warning" then run dev k rest
    else ⟨[], [], .error .unsupportedQuery⟩

/-! ## Helper lemmas: hex codec -/

lemma hexDigitVal_hexDigitChar : ∀ n < 16, hexDigitVal (hexDigitChar n) = some n := by
  decide

lemma hexDecode_byteHexChars (b : Nat) (hb : b < 256) (rest : List Char) :
    hexDecode (byteHexChars b ++ rest) = (hexDecode rest).map (fun bs => b :: bs) := by
  have h1 : hexDigitVal (hexDigitChar (b / 16)) = some (b / 16) :=
    hexDigitVal_hexDigitChar _ (Nat.div_lt_of_lt_mul (by omega))
  have h2 : hexDigitVal (hexDigitChar (b % 16)) = some (b % 16) :=
    hexDigitVal_hexDigitChar _ (Nat.mod_lt _ (by omega))
  simp [byteHexChars, hexDecode, h1, h2, Nat.div_add_mod]

lemma hexDecode_hexEncode (bs : List Nat) (h : ∀ b ∈ bs, b < 256) :
    hexDecode (hexEncode bs).data = some bs := by
  show hexDecode ((bs.map byteHexChars).flatten) = some bs
  induction bs with
  | nil => rfl
  | cons b t ih =>
    simp only [List.map_cons, List.flatten_cons]
    rw [hexDecode_byteHexChars b (h b (by simp))]
    rw [ih (fun x hx => h x (by simp [hx]))]
    rfl

/-- C3: for every command whose payload length is at most 255 bytes (and whose
bytes are in range), encoding it into the `[class, instruction, p1, p2,
payload-length, payload...]` frame, hex-encoded, and then decoding the hex
string reconstructs the original command exactly; and decoding fails when the
hex decoding fails or when the total byte length differs from 5 plus the
declared payload-length byte. -/
theorem apdu_decode_encode_roundtrip :
    (∀ c : APDUCommand, c.cla < 256 → c.ins < 256 → c.p1 < 256 → c.p2 < 256 →
      (∀ b ∈ c.data, b < 256) → c.data.length ≤ 255 →
      deser_apdu_command (ser_apdu_command c) = .ok c)
    ∧ (∀ s : String, hexDecode s.data = none →
      deser_apdu_command s = .error .hexError)
    ∧ (∀ (s : String) (bytes : List Nat), hexDecode s.data = some bytes →
      bytes.length ≠ 5 + bytes.getD 4 0 →
      deser_apdu_command s = .error .invalidCommand) := by
  refine ⟨?_, ?_, ?_⟩
  · intro c h1 h2 h3 h4 h5 h6
    have hall : ∀ b ∈ [c.cla, c.ins, c.p1, c.p2, c.data.length] ++ c.data, b < 256 := by
      intro b hb
      simp only [List.mem_append, List.mem_cons, List.not_mem_nil, or_false] at hb
      rcases hb with hb | hb
      · rcases hb with rfl | rfl | rfl | rfl | rfl <;> omega
      · exact h5 b hb
    have hdec := hexDecode_hexEncode _ hall
    unfold deser_apdu_command ser_apdu_command
    rw [hdec]
    simp [List.getD]
    split
    · next hlt => exact absurd hlt (by omega)
    · split
      · rfl
      · next hne => exact absurd (by omega) hne
  · intro s h
    unfold deser_apdu_command
    rw [h]
  · intro s bytes h hne
    simp [deser_apdu_command, h, hne]
    intro _
    simpa [List.getD] using hne

/-- Witness for C3 at concrete inputs. -/
theorem apdu_decode_encode_roundtrip_witness :
    deser_apdu_command (ser_apdu_command ⟨224, 1, 0, 0, [171]⟩) = .ok ⟨224, 1, 0, 0, [171]⟩
    ∧ deser_apdu_command "zz" = .error .hexError
    ∧ deser_apdu_command "e001000002ab" = .error .invalidCommand :=
  ⟨apdu_decode_encode_roundtrip.1 ⟨224, 1, 0, 0, [171]⟩ (by decide) (by decide) (by decide)
      (by decide) (by decide) (by decide),
   apdu_decode_encode_roundtrip.2.1 "zz" (by decide),
   apdu_decode_encode_roundtrip.2.2 "e001000002ab" [224, 1, 0, 0, 2, 171] (by decide) (by decide)⟩

/-- C1: on an "exchange" envelope carrying a single hex command, the relay
engine decodes it, executes it on the device, and replies with
`{nonce, response, data}` where `response` is "success" exactly when the
device status equals 0x9000 and "error" otherwise, and `data` is the hex
encoding of the response payload (status bytes excluded); in both cases the
receive loop continues with the remaining messages, so a non-0x9000 status is
not session-fatal. -/
theorem relay_exchange_reply (dev : Nat → ExchangeResult) (k nonce : Nat)
    (h : String) (c : APDUCommand) (d : List Nat) (rc : Nat) (rest : List HsmMessage)
    (hdes : deser_apdu_command h = .ok c) (hdev : dev k = .ok d rc) :
    run dev k (⟨"exchange", nonce, some (.Command h)⟩ :: rest) =
      ⟨⟨nonce, if rc == StatusCode.OK then "success" else "error", hexEncode d⟩
          :: (run dev (k + 1) rest).sent,
       c :: (run dev (k + 1) rest).exchanged,
       (run dev (k + 1) rest).outcome⟩ := by
  simp [run, hdes, hdev]

/-- Witness for C1: nonce 7, device status 0x9000 with payload byte 0xAB
yields the outbound reply `{nonce 7, "success", "ab"}` and the session goes
on to process the following "success" message. -/
theorem relay_exchange_reply_witness :
    run (fun _ => .ok [171] 36864) 0
      [⟨"exchange", 7, some (.Command "e000000000")⟩, ⟨"success", 1, none⟩] =
      ⟨[⟨7, "success", "ab"⟩], [⟨224, 0, 0, 0, []⟩], .ok ()⟩ := by
  have h := relay_exchange_reply (fun _ => .ok [171] 36864) 0 7 "e000000000"
    ⟨224, 0, 0, 0, []⟩ [171] 36864 [⟨"success", 1, none⟩] (by decide) rfl
  exact h.trans (by decide)

/-- C2: on a "bulk" envelope the relay engine executes the listed hex
commands in order, skipping empty strings (second conjunct: when the device
transport fails at the (j+1)-th executed sub-command, exactly the first j+1
non-empty commands were relayed, in order, and the loop aborts with the
transport error), and any transport-level failure inside the bulk loop aborts
the whole session with that transport error before any completion reply is
sent (first conjunct: the session result carries no outbound reply). -/
theorem relay_bulk_transport_abort :
    (∀ (dev : Nat → ExchangeResult) (k : Nat) (hexes : List String) (nonce : Nat)
        (rest : List HsmMessage) (tr : List APDUCommand),
      runBulk dev k hexes = (tr, .error .transportError) →
      run dev k (⟨"bulk", nonce, some (.CommandList hexes)⟩ :: rest) =
        ⟨[], tr, .error .transportError⟩)
    ∧ (∀ (dev : Nat → ExchangeResult) (k : Nat) (f : String → APDUCommand)
        (hexes : List String) (j : Nat),
      (∀ h ∈ hexes, h.isEmpty = false → deser_apdu_command h = .ok (f h)) →
      (∀ m, m < j → ∃ d rc, dev (k + m) = .ok d rc) →
      dev (k + j) = .transportErr →
      j < (hexes.filter (fun h => !h.isEmpty)).length →
      runBulk dev k hexes =
        (((hexes.filter (fun h => !h.isEmpty)).take (j + 1)).map f,
          .error .transportError)) := by
  constructor
  · intro dev k hexes nonce rest tr hrb
    simp [run, hrb]
  · intro dev k f hexes j hdes hok hfail hlt
    induction hexes generalizing k j with
    | nil => simp at hlt
    | cons h t ih =>
      by_cases he : h.isEmpty
      · have hfilter : (h :: t).filter (fun h => !h.isEmpty) =
            t.filter (fun h => !h.isEmpty) := by simp [List.filter_cons, he]
        rw [hfilter] at hlt ⊢
        rw [runBulk, if_pos he]
        exact ih k j (fun x hx hne => hdes x (by simp [hx]) hne) hok hfail hlt
      · have he' : h.isEmpty = false := by simpa using he
        have hd := hdes h (by simp) he'
        have hfilter : (h :: t).filter (fun h => !h.isEmpty) =
            h :: t.filter (fun h => !h.isEmpty) := by simp [List.filter_cons, he']
        rw [hfilter] at hlt ⊢
        cases j with
        | zero =>
          have hf0 : dev k = .transportErr := by simpa using hfail
          rw [runBulk, if_neg (by simp [he']), hd]
          simp [hf0]
        | succ j' =>
          obtain ⟨d, rc, hdev0⟩ := hok 0 (by omega)
          have hdev0' : dev k = .ok d rc := by simpa using hdev0
          rw [runBulk, if_neg (by simp [he']), hd]
          simp only [hdev0']
          have hrec := ih (k + 1) j' (fun x hx hne => hdes x (by simp [hx]) hne)
            (fun m hm => by
              obtain ⟨d', rc', hd'⟩ := hok (m + 1) (by omega)
              exact ⟨d', rc', by rw [show k + 1 + m = k + (m + 1) by omega]; exact hd'⟩)
            (by rw [show k + 1 + j' = k + (j' + 1) by omega]; exact hfail)
            (by simpa using hlt)
          simp [hrec, List.take_cons]

/-- Witness for C2: in the bulk list `["", cmd1, cmd2]` with the transport
failing on the second executed command, both executed commands were relayed
in order, the empty string was skipped, the session aborts with the
transport error, and no completion reply was sent. -/
theorem relay_bulk_transport_abort_witness :
    runBulk (fun m => if m = 0 then .ok [] 36864 else .transportErr) 0
      ["", "e000000000", "e001000000"] =
      ([⟨224, 0, 0, 0, []⟩, ⟨224, 1, 0, 0, []⟩], .error .transportError)
    ∧ run (fun m => if m = 0 then .ok [] 36864 else .transportErr) 0
      [⟨"bulk", 3, some (.CommandList ["", "e000000000", "e001000000"])⟩] =
      ⟨[], [⟨224, 0, 0, 0, []⟩, ⟨224, 1, 0, 0, []⟩], .error .transportError⟩ := by
  constructor
  · have h := relay_bulk_transport_abort.2
      (fun m => if m = 0 then .ok [] 36864 else .transportErr) 0
      (fun s => if s = "e000000000" then ⟨224, 0, 0, 0, []⟩ else ⟨224, 1, 0, 0, []⟩)
      ["", "e000000000", "e001000000"] 1
      (by decide)
      (fun m hm => by interval_cases m; exact ⟨[], 36864, rfl⟩)
      rfl (by decide)
    exact h.trans (by decide)
  · exact relay_bulk_transport_abort.1
      (fun m => if m = 0 then .ok [] 36864 else .transportErr) 0
      ["", "e000000000", "e001000000"] 3 []
      [⟨224, 0, 0, 0, []⟩, ⟨224, 1, 0, 0, []⟩] (by decide)

lemma runBulk_all_ok (dev : Nat → ExchangeResult) (f : String → APDUCommand)
    (hexes : List String) (k : Nat)
    (hdes : ∀ h ∈ hexes, h.isEmpty = false → deser_apdu_command h = .ok (f h))
    (hdev : ∀ m, ∃ d rc, dev m = .ok d rc) :
    runBulk dev k hexes = ((hexes.filter (fun h => !h.isEmpty)).map f,
      .ok (k + (hexes.filter (fun h => !h.isEmpty)).length)) := by
  induction hexes generalizing k with
  | nil => simp [runBulk]
  | cons h t ih =>
    by_cases he : h.isEmpty
    · rw [runBulk, if_pos he]
      rw [ih k (fun x hx hne => hdes x (by simp [hx]) hne)]
      simp [List.filter_cons, he]
    · have he' : h.isEmpty = false := by simpa using he
      have hd := hdes h (by simp) he'
      obtain ⟨d, rc, hdev0⟩ := hdev k
      rw [runBulk, if_neg (by simp [he']), hd]
      simp only [hdev0]
      rw [ih (k + 1) (fun x hx hne => hdes x (by simp [hx]) hne)]
      simp [List.filter_cons, he']
      omega

/-- C9: in "bulk" mode the relay engine never inspects per-command device
status codes: whenever every executed exchange succeeds at the transport
level (with arbitrary status words, possibly not 0x9000), the engine relays
exactly the non-empty commands in order and replies
`{nonce, response := "success", data := ""}`, and the loop continues. -/
theorem relay_bulk_ignores_status (dev : Nat → ExchangeResult) (k : Nat)
    (f : String → APDUCommand) (hexes : List String) (nonce : Nat)
    (rest : List HsmMessage)
    (hdes : ∀ h ∈ hexes, h.isEmpty = false → deser_apdu_command h = .ok (f h))
    (hdev : ∀ m, ∃ d rc, dev m = .ok d rc) :
    run dev k (⟨"bulk", nonce, some (.CommandList hexes)⟩ :: rest) =
      ⟨⟨nonce, "success", ""⟩
          :: (run dev (k + (hexes.filter (fun h => !h.isEmpty)).length) rest).sent,
       (hexes.filter (fun h => !h.isEmpty)).map f
          ++ (run dev (k + (hexes.filter (fun h => !h.isEmpty)).length) rest).exchanged,
       (run dev (k + (hexes.filter (fun h => !h.isEmpty)).length) rest).outcome⟩ := by
  have hrb := runBulk_all_ok dev f hexes k hdes hdev
  simp [run, hrb]

/-- Witness for C9: a single bulk command whose exchange returns the
non-0x9000 status 0x6985 still produces the `{nonce, "success", ""}` reply
and the session continues to the final "success" message. -/
theorem relay_bulk_ignores_status_witness :
    run (fun _ => .ok [] 27013) 0
      [⟨"bulk", 3, some (.CommandList ["e000000000"])⟩, ⟨"success", 1, none⟩] =
      ⟨[⟨3, "success", ""⟩], [⟨224, 0, 0, 0, []⟩], .ok ()⟩ := by
  have h := relay_bulk_ignores_status (fun _ => .ok [] 27013) 0
    (fun _ => ⟨224, 0, 0, 0, []⟩) ["e000000000"] 3 [⟨"success", 1, none⟩]
    (by decide) (fun m => ⟨[], 27013, rfl⟩)
  exact h.trans (by decide)

lemma parseTail_flag (t : Nat) (v f : List Nat) (b : Bool) (rem : List Nat)
    (info : DeviceInfo) (h : DeviceInfo.parseTail t v f b rem = .ok info) :
    info.is_bootloader = b ∧ info.mcu_version.isSome = !b := by
  simp only [DeviceInfo.parseTail] at h
  repeat' split at h
  all_goals first
    | (simp only [Except.ok.injEq] at h; subst h; simp_all)
    | simp at h

lemma new_ok_parseTail (data : List Nat) (info : DeviceInfo)
    (h : DeviceInfo.new data = .ok info) :
    ∃ v f rem, DeviceInfo.parseTail (u32be (data.take 4)) v f
      ((u32be (data.take 4) &&& 4026531840) != 805306368) rem = .ok info := by
  simp only [DeviceInfo.new] at h
  repeat' split at h
  all_goals first
    | exact ⟨_, _, _, h⟩
    | simp at h

lemma new_shape (t4 v f tail : List Nat) (h4 : t4.length = 4) :
    DeviceInfo.new (t4 ++ (v.length :: (v ++ (f.length :: (f ++ tail))))) =
      if ¬ isValidUtf8 v then .error .utf8Error
      else DeviceInfo.parseTail (u32be t4) v f
        ((u32be t4 &&& 4026531840) != 805306368) tail := by
  have hlen : (t4 ++ (v.length :: (v ++ (f.length :: (f ++ tail))))).length =
      6 + v.length + f.length + tail.length := by
    simp only [List.length_append, List.length_cons, h4]; omega
  simp only [DeviceInfo.new]
  rw [List.take_left' h4, List.drop_left' h4, hlen]
  rw [if_neg (by omega)]
  simp only [List.headD_cons, List.drop_one, List.tail_cons]
  have c2 : ¬((v ++ (f.length :: (f ++ tail))).length < v.length + 1) := by
    simp only [List.length_append, List.length_cons]; omega
  rw [if_neg c2, List.take_left, List.drop_left]
  simp only [List.headD_cons, List.drop_one, List.tail_cons]
  have c3 : ¬((f ++ tail).length < f.length) := by
    simp only [List.length_append]; omega
  rw [if_neg c3, List.take_left, List.drop_left]

/-- C4: whenever `DeviceInfo.new` succeeds, the `is_bootloader` field equals
the test `(target_id &&& 0xF0000000) != 0x30000000` on the 4-byte big-endian
target id at the start of the payload, and this flag alone determines which
branch was taken (the application branch is exactly the one that produces an
MCU version). -/
theorem deviceinfo_bootloader_mask (data : List Nat) (info : DeviceInfo)
    (h : DeviceInfo.new data = .ok info) :
    info.is_bootloader = ((u32be (data.take 4) &&& 4026531840) != 805306368)
    ∧ info.mcu_version.isSome = !info.is_bootloader := by
  obtain ⟨v, f, rem, hp⟩ := new_ok_parseTail data info h
  obtain ⟨h1, h2⟩ := parseTail_flag _ _ _ _ _ _ hp
  exact ⟨h1, by rw [h1]; exact h2⟩

/-- Witness for C4 at the application-mode example payload. -/
theorem deviceinfo_bootloader_mask_witness :
    (⟨822083584, [50, 46, 49, 46, 48], [0], false, some [50, 46, 49, 46, 48],
        822083584, some [49, 46, 49, 54]⟩ : DeviceInfo).is_bootloader
      = ((u32be (([49, 0, 0, 0, 5, 50, 46, 49, 46, 48, 1, 0, 4, 49, 46, 49,
          54] : List Nat).take 4) &&& 4026531840) != 805306368)
    ∧ (⟨822083584, [50, 46, 49, 46, 48], [0], false, some [50, 46, 49, 46, 48],
        822083584, some [49, 46, 49, 54]⟩ : DeviceInfo).mcu_version.isSome
      = !(⟨822083584, [50, 46, 49, 46, 48], [0], false, some [50, 46, 49, 46, 48],
        822083584, some [49, 46, 49, 54]⟩ : DeviceInfo).is_bootloader :=
  deviceinfo_bootloader_mask
    [49, 0, 0, 0, 5, 50, 46, 49, 46, 48, 1, 0, 4, 49, 46, 49, 54] _ (by decide)

lemma parseTail_app (t : Nat) (v f mcu : List Nat) :
    DeviceInfo.parseTail t v f false (mcu.length :: mcu) =
      if mcu.length = 0 then .error .panicIndex
      else if ¬ isValidUtf8 (if mcu.getLast? = some 0 then mcu.dropLast else mcu) then
        .error .panicUtf8
      else .ok ⟨t, v, f, false, some v, t,
        some (if mcu.getLast? = some 0 then mcu.dropLast else mcu)⟩ := by
  simp only [DeviceInfo.parseTail, Bool.false_eq_true, if_false]
  rw [if_neg (by simp)]
  simp only [List.headD_cons, List.drop_one, List.tail_cons]
  rw [if_neg (lt_irrefl _), List.take_length]

/-- C5: in application mode the decoder reads a 1-byte length followed by
that many MCU bytes, strips a single trailing NUL before decoding, and
produces `se_version = version`, `se_target_id = target_id` and
`mcu_version =` the (possibly stripped) MCU string. -/
theorem deviceinfo_app_mode (t4 v f mcu : List Nat) (h4 : t4.length = 4)
    (happ : u32be t4 &&& 4026531840 = 805306368)
    (hv : isValidUtf8 v = true) (hm : mcu ≠ [])
    (hm2 : isValidUtf8 (if mcu.getLast? = some 0 then mcu.dropLast else mcu) = true) :
    DeviceInfo.new (t4 ++ (v.length :: (v ++ (f.length :: (f ++ (mcu.length :: mcu)))))) =
      .ok ⟨u32be t4, v, f, false, some v, u32be t4,
           some (if mcu.getLast? = some 0 then mcu.dropLast else mcu)⟩ := by
  rw [new_shape t4 v f (mcu.length :: mcu) h4]
  rw [if_neg (by simp [hv])]
  have hb : ((u32be t4 &&& 4026531840) != 805306368) = false := by simp [happ]
  rw [hb, parseTail_app]
  rw [if_neg (by simpa using hm), if_neg (by simp [hm2])]

/-- Witness for C5: target id 0x31000000, version "2.1.0", one flag byte,
MCU string "1.16" decodes to the expected application-mode identity. -/
theorem deviceinfo_app_mode_witness :
    DeviceInfo.new [49, 0, 0, 0, 5, 50, 46, 49, 46, 48, 1, 0, 4, 49, 46, 49, 54] =
      .ok ⟨822083584, [50, 46, 49, 46, 48], [0], false, some [50, 46, 49, 46, 48],
           822083584, some [49, 46, 49, 54]⟩ := by
  have h := deviceinfo_app_mode [49, 0, 0, 0] [50, 46, 49, 46, 48] [0] [49, 46, 49, 54]
    rfl (by decide) (by decide) (by decide) (by decide)
  exact h.trans (by decide)

/-- C10: in application mode, a get-version payload whose MCU-string length
byte is 0 makes the decoder hit the out-of-bounds index
`mcu[mcu.len() - 1]` (modelled as the `panicIndex` outcome) instead of
returning a decode error: the decoder is not a total error-returning
function at such inputs. -/
theorem deviceinfo_empty_mcu_panics (t4 v f rest : List Nat) (h4 : t4.length = 4)
    (happ : u32be t4 &&& 4026531840 = 805306368) (hv : isValidUtf8 v = true) :
    DeviceInfo.new (t4 ++ (v.length :: (v ++ (f.length :: (f ++ (0 :: rest)))))) =
      .error .panicIndex := by
  rw [new_shape t4 v f (0 :: rest) h4]
  rw [if_neg (by simp [hv])]
  have hb : ((u32be t4 &&& 4026531840) != 805306368) = false := by simp [happ]
  rw [hb]
  simp [DeviceInfo.parseTail]

/-- Witness for C10 at the concrete payload `[0x31,0,0,0, 0, 0, 0]`
(empty version, empty flags, MCU length byte 0). -/
theorem deviceinfo_empty_mcu_panics_witness :
    DeviceInfo.new [49, 0, 0, 0, 0, 0, 0] = .error .panicIndex :=
  deviceinfo_empty_mcu_panics [49, 0, 0, 0] [] [] [] rfl (by decide) (by decide)

lemma parseTail_boot_se_invalid (t : Nat) (v f p1 rest : List Nat)
    (hp5 : 5 ≤ p1.length) (hp : isValidUtf8 p1 = false) :
    DeviceInfo.parseTail t v f true (p1.length :: (p1 ++ rest)) =
      .error .panicUtf8 := by
  simp only [DeviceInfo.parseTail]
  rw [if_pos trivial]
  rw [if_neg (by simp)]
  simp only [List.headD_cons, List.drop_one, List.tail_cons]
  have c : ¬((p1 ++ rest).length < p1.length) := by
    simp only [List.length_append]; omega
  rw [if_neg c, List.take_left, if_pos hp5, if_pos (by simp [hp])]

/-- C6 (amended): a firmware-version field that is not valid UTF-8 makes
`DeviceInfo` decoding return the encoding error (`str::from_utf8(...)?`);
but an invalid secure-element version in the bootloader branch or an
invalid MCU string in the application branch makes the decoder panic
(`str::from_utf8(...).unwrap()`), modelled as `panicUtf8`, rather than
return an error. -/
theorem deviceinfo_invalid_text_behavior :
    (∀ (t4 v : List Nat) (x : Nat) (rest : List Nat), t4.length = 4 →
      isValidUtf8 v = false →
      DeviceInfo.new (t4 ++ (v.length :: (v ++ (x :: rest)))) = .error .utf8Error)
    ∧ (∀ t4 v f p1 rest : List Nat, t4.length = 4 →
      u32be t4 &&& 4026531840 ≠ 805306368 → isValidUtf8 v = true →
      5 ≤ p1.length → isValidUtf8 p1 = false →
      DeviceInfo.new
        (t4 ++ (v.length :: (v ++ (f.length :: (f ++ (p1.length :: (p1 ++ rest))))))) =
        .error .panicUtf8)
    ∧ (∀ t4 v f mcu : List Nat, t4.length = 4 →
      u32be t4 &&& 4026531840 = 805306368 → isValidUtf8 v = true → mcu ≠ [] →
      isValidUtf8 (if mcu.getLast? = some 0 then mcu.dropLast else mcu) = false →
      DeviceInfo.new
        (t4 ++ (v.length :: (v ++ (f.length :: (f ++ (mcu.length :: mcu)))))) =
        .error .panicUtf8) := by
  refine ⟨?_, ?_, ?_⟩
  · intro t4 v x rest h4 hv
    have hlen : (t4 ++ (v.length :: (v ++ (x :: rest)))).length =
        6 + v.length + rest.length := by
      simp only [List.length_append, List.length_cons, h4]; omega
    simp only [DeviceInfo.new]
    rw [List.take_left' h4, List.drop_left' h4, hlen, if_neg (by omega)]
    simp only [List.headD_cons, List.drop_one, List.tail_cons]
    have c2 : ¬((v ++ (x :: rest)).length < v.length + 1) := by
      simp only [List.length_append, List.length_cons]; omega
    rw [if_neg c2, List.take_left, if_pos (by simp [hv])]
  · intro t4 v f p1 rest h4 hboot hv hp5 hp
    rw [new_shape t4 v f (p1.length :: (p1 ++ rest)) h4, if_neg (by simp [hv])]
    have hb : ((u32be t4 &&& 4026531840) != 805306368) = true := by
      simpa using hboot
    rw [hb, parseTail_boot_se_invalid (u32be t4) v f p1 rest hp5 hp]
  · intro t4 v f mcu h4 happ hv hm hm2
    rw [new_shape t4 v f (mcu.length :: mcu) h4, if_neg (by simp [hv])]
    have hb : ((u32be t4 &&& 4026531840) != 805306368) = false := by simp [happ]
    rw [hb, parseTail_app]
    rw [if_neg (by simpa using hm), if_pos (by simp [hm2])]

/-- Counterexample for C6 as stated: at the application-mode payload
`[0x31,0,0,0, 0, 0, 1, 0xFF]` the MCU string `[0xFF]` is not valid UTF-8,
yet decoding does not return the encoding error — it panics. -/
theorem deviceinfo_invalid_text_counterexample :
    isValidUtf8 [255] = false
    ∧ DeviceInfo.new [49, 0, 0, 0, 0, 0, 1, 255] = .error .panicUtf8
    ∧ DeviceInfo.new [49, 0, 0, 0, 0, 0, 1, 255] ≠ .error .utf8Error := by
  decide

/-- Witness for the amended C6 at concrete payloads for all three text
fields. -/
theorem deviceinfo_invalid_text_behavior_witness :
    DeviceInfo.new [49, 0, 0, 0, 1, 255, 0] = .error .utf8Error
    ∧ DeviceInfo.new [5, 0, 0, 0, 0, 0, 5, 255, 255, 255, 255, 255] = .error .panicUtf8
    ∧ DeviceInfo.new [49, 0, 0, 0, 0, 0, 1, 255] = .error .panicUtf8 :=
  ⟨deviceinfo_invalid_text_behavior.1 [49, 0, 0, 0] [255] 0 [] rfl (by decide),
   deviceinfo_invalid_text_behavior.2.1 [5, 0, 0, 0] [] [] [255, 255, 255, 255, 255] []
     rfl (by decide) (by decide) (by decide) (by decide),
   deviceinfo_invalid_text_behavior.2.2 [49, 0, 0, 0] [] [] [255]
     rfl (by decide) (by decide) (by decide) (by decide)⟩

/-! ## Record-chunk descriptions for the app-listing theorems

`RawApp` describes the fields of one on-wire app record; `chunkWith L`
lays them out as the decoder expects (`L`, 2-byte blocks, 2-byte flags,
32-byte code-data hash, 32-byte hash, 1-byte name length, name), and
`chunk` uses the valid declared length `name length + 70`. -/

structure RawApp where
  blocks2 : List Nat
  flags2 : List Nat
  hcd : List Nat
  hsh : List Nat
  name : List Nat
deriving Repr, DecidableEq

/-- Record bytes with an arbitrary declared total-length byte `L`. -/
def RawApp.chunkWith (L : Nat) (r : RawApp) : List Nat :=
  L :: (r.blocks2 ++ (r.flags2 ++ (r.hcd ++ (r.hsh ++ (r.name.length :: r.name)))))

/-- Record bytes with the valid declared length `name length + 70`. -/
def RawApp.chunk (r : RawApp) : List Nat :=
  r.chunkWith (r.name.length + 70)

/-- The `InstalledApp` the decoder produces for this record. -/
def RawApp.app (r : RawApp) : InstalledApp :=
  ⟨r.name, r.hsh, r.hcd, u16be r.blocks2, u16be r.flags2⟩

/-- Field widths are correct and the name is valid UTF-8. -/
def RawApp.wf (r : RawApp) : Prop :=
  r.blocks2.length = 2 ∧ r.flags2.length = 2 ∧ r.hcd.length = 32 ∧
  r.hsh.length = 32 ∧ isValidUtf8 r.name = true

instance (r : RawApp) : Decidable r.wf := by
  unfold RawApp.wf; infer_instance

lemma parseRecords_chunk (r : RawApp) (rest : List Nat) (hwf : r.wf) :
    parseRecords (r.chunk ++ rest) =
      match parseRecords rest with
      | .error e => .error e
      | .ok apps => .ok (r.app :: apps) := by
  obtain ⟨h2, hf2, h32, hs32, hutf⟩ := hwf
  simp only [RawApp.chunk, RawApp.chunkWith, RawApp.app, List.cons_append,
    List.append_assoc]
  simp only [parseRecords]
  rw [if_neg (by
    simp only [List.length_cons, List.length_append, h2, hf2, h32, hs32]; omega)]
  simp only [List.drop_one, List.tail_cons]
  rw [List.take_left' h2, List.drop_left' h2, List.take_left' hf2, List.drop_left' hf2,
    List.take_left' h32, List.drop_left' h32, List.take_left' hs32, List.drop_left' hs32]
  simp only [List.headD_cons, List.drop_one, List.tail_cons]
  rw [if_neg (by simp only [List.length_append]; omega)]
  rw [if_neg (by omega)]
  rw [List.take_left, if_neg (by simp [hutf]), List.drop_left]

lemma parseRecords_chunks (rs : List RawApp) (h : ∀ r ∈ rs, r.wf) :
    parseRecords ((rs.map RawApp.chunk).flatten) = .ok (rs.map RawApp.app) := by
  induction rs with
  | nil => simp [parseRecords]
  | cons r t ih =>
    simp only [List.map_cons, List.flatten_cons]
    rw [parseRecords_chunk r _ (h r (by simp))]
    rw [ih (fun x hx => h x (by simp [hx]))]

/-- C7: during app-inventory decoding, a record whose declared 1-byte total
length `L` differs from its name length plus 70 makes the decode fail with
the invalid-record error (first conjunct, terminal for the listing), while a
record with `L` equal to name length plus 70 is accepted and appended in
front of whatever the rest of the page decodes to (second conjunct). -/
theorem listapps_record_length_validation :
    (∀ (L : Nat) (r : RawApp) (rest : List Nat), r.wf → L ≠ r.name.length + 70 →
      parseRecords (r.chunkWith L ++ rest) = .error .invalidRecord)
    ∧ (∀ (r : RawApp) (rest : List Nat), r.wf →
      parseRecords (r.chunk ++ rest) =
        match parseRecords rest with
        | .error e => .error e
        | .ok apps => .ok (r.app :: apps)) := by
  constructor
  · intro L r rest hwf hL
    obtain ⟨h2, hf2, h32, hs32, hutf⟩ := hwf
    simp only [RawApp.chunkWith, List.cons_append, List.append_assoc]
    simp only [parseRecords]
    rw [if_neg (by
      simp only [List.length_cons, List.length_append, h2, hf2, h32, hs32]; omega)]
    simp only [List.drop_one, List.tail_cons]
    rw [List.take_left' h2, List.drop_left' h2, List.take_left' hf2, List.drop_left' hf2,
      List.take_left' h32, List.drop_left' h32, List.take_left' hs32, List.drop_left' hs32]
    simp only [List.headD_cons, List.drop_one, List.tail_cons]
    rw [if_neg (by simp only [List.length_append]; omega)]
    rw [if_pos hL]
  · exact fun r rest hwf => parseRecords_chunk r rest hwf

/-- Witness for C7: declared length 75 on a 4-character name is rejected
with the invalid-record error; declared length 74 is accepted and the record
is appended. -/
theorem listapps_record_length_validation_witness :
    parseRecords
        ((⟨[0, 1], [0, 2], List.replicate 32 7, List.replicate 32 8,
          [66, 84, 67, 49]⟩ : RawApp).chunkWith 75 ++ []) = .error .invalidRecord
    ∧ parseRecords
        ((⟨[0, 1], [0, 2], List.replicate 32 7, List.replicate 32 8,
          [66, 84, 67, 49]⟩ : RawApp).chunk ++ []) =
      .ok [⟨[66, 84, 67, 49], List.replicate 32 8, List.replicate 32 7, 1, 2⟩] :=
  ⟨listapps_record_length_validation.1 75
      ⟨[0, 1], [0, 2], List.replicate 32 7, List.replicate 32 8, [66, 84, 67, 49]⟩ []
      (by decide) (by decide),
   (listapps_record_length_validation.2
      ⟨[0, 1], [0, 2], List.replicate 32 7, List.replicate 32 8, [66, 84, 67, 49]⟩ []
      (by decide)).trans (by simp [parseRecords, RawApp.app, u16be])⟩

/-- C8: pagination appends records in receipt order across pages, and
decoding the same total well-formed record bytes yields the same app list
regardless of how the records are split across (marker-prefixed) pages:
any page split decodes to the flat list of all records, the same result as
presenting all records on a single page. -/
theorem listapps_pagination_split_invariance (rss : List (List RawApp))
    (h : ∀ r ∈ rss.flatten, r.wf) :
    list_installed_apps (rss.map (fun rs => 1 :: (rs.map RawApp.chunk).flatten)) =
      .ok ((rss.flatten).map RawApp.app)
    ∧ list_installed_apps [1 :: ((rss.flatten.map RawApp.chunk).flatten)] =
      .ok ((rss.flatten).map RawApp.app) := by
  constructor
  · induction rss with
    | nil => rfl
    | cons rs t ih =>
      simp only [List.map_cons]
      simp only [list_installed_apps]
      rw [if_neg (by simp), if_neg (by simp)]
      simp only [List.drop_one, List.tail_cons]
      rw [parseRecords_chunks rs (fun x hx => h x (by simp [hx]))]
      rw [ih (fun x hx => h x (by simp [hx]))]
      simp [List.map_append]
  · simp only [list_installed_apps]
    rw [if_neg (by simp), if_neg (by simp)]
    simp only [List.drop_one, List.tail_cons]
    rw [parseRecords_chunks rss.flatten h]
    simp [list_installed_apps]

/-- Witness for C8: two records split as two one-record pages decode to the
same list as the two records on a single page. -/
theorem listapps_pagination_split_invariance_witness :
    list_installed_apps
        ([[⟨[0, 1], [0, 2], List.replicate 32 7, List.replicate 32 8, [66, 84, 67]⟩],
          [⟨[0, 3], [0, 4], List.replicate 32 9, List.replicate 32 5, [76, 84, 67]⟩]].map
          (fun rs => 1 :: (rs.map RawApp.chunk).flatten)) =
      .ok [⟨[66, 84, 67], List.replicate 32 8, List.replicate 32 7, 1, 2⟩,
           ⟨[76, 84, 67], List.replicate 32 5, List.replicate 32 9, 3, 4⟩]
    ∧ list_installed_apps
        [1 :: ((([[⟨[0, 1], [0, 2], List.replicate 32 7, List.replicate 32 8,
            [66, 84, 67]⟩],
          [⟨[0, 3], [0, 4], List.replicate 32 9, List.replicate 32 5,
            [76, 84, 67]⟩]] : List (List RawApp)).flatten.map RawApp.chunk).flatten)] =
      .ok [⟨[66, 84, 67], List.replicate 32 8, List.replicate 32 7, 1, 2⟩,
           ⟨[76, 84, 67], List.replicate 32 5, List.replicate 32 9, 3, 4⟩] := by
  have h := listapps_pagination_split_invariance
    [[⟨[0, 1], [0, 2], List.replicate 32 7, List.replicate 32 8, [66, 84, 67]⟩],
     [⟨[0, 3], [0, 4], List.replicate 32 9, List.replicate 32 5, [76, 84, 67]⟩]]
    (by decide)
  exact ⟨h.1.trans (by simp [RawApp.app, u16be]), h.2.trans (by simp [RawApp.app, u16be])⟩

